import Mathlib

/-!
Verification of the Bloom-filter core of FusionBloomFilter.

The repository's algorithmic core (src/Bitmap.py and src/BloomFilter.py) is:
a sparse hash built from the leading bytes of the SHA-256 digest of an item's
UTF-8 encoding, a Bloom filter that accumulates those bytes into a set, a
subset-based membership test, and a nibble-split mapping between bytes and a
16x16 grid.  This file embeds those functions and the SHA-256/UTF-8 primitives
they call, and proves the specified properties about them.

Conventions: Python sets of small ints become `Finset Nat`; byte strings
become `List Nat` with entries below 256; a Python function that can raise
(IndexError from out-of-range digest indexing) returns `Option`; Python's
arbitrary-precision integers become `Int`, where `v & 0xF` equals `v % 16`
(Lean `Int.emod`), `v & 0xFF` equals `v % 256`, and `(v & 0xF0) >> 4` equals
`(v % 256) / 16` (Lean `Int.ediv`; the operand is nonnegative, so all
division conventions agree).
-/

namespace FusionBloom

/-- UTF-8 encoding of a single Unicode code point as a list of byte values,
as produced by Python's str.encode for each character. -/
def utf8EncodeCharNat (c : Nat) : List Nat :=
  if c < 0x80 then [c]
  else if c < 0x800 then
    [0xC0 ||| (c >>> 6), 0x80 ||| (c &&& 0x3F)]
  else if c < 0x10000 then
    [0xE0 ||| (c >>> 12), 0x80 ||| ((c >>> 6) &&& 0x3F), 0x80 ||| (c &&& 0x3F)]
  else
    [0xF0 ||| (c >>> 18), 0x80 ||| ((c >>> 12) &&& 0x3F),
     0x80 ||| ((c >>> 6) &&& 0x3F), 0x80 ||| (c &&& 0x3F)]

/-- UTF-8 encoding of a string as a list of byte values: the embedding of
Python's string_to_add.encode with encoding utf-8. -/
def utf8Encode (s : String) : List Nat :=
  s.data.flatMap (fun c => utf8EncodeCharNat c.toNat)

/-- Truncation of a natural number to a 32-bit word. -/
def w32 (n : Nat) : Nat := n % 4294967296

/-- Right rotation of a 32-bit word by n bits. -/
def rotr (n x : Nat) : Nat := w32 ((x >>> n) ||| (x <<< (32 - n)))

/-- Bitwise complement of a 32-bit word. -/
def wnot (x : Nat) : Nat := x ^^^ 0xFFFFFFFF

/-- SHA-256 choice function. -/
def ch (e f g : Nat) : Nat := (e &&& f) ^^^ (wnot e &&& g)

/-- SHA-256 majority function. -/
def maj (a b c : Nat) : Nat := (a &&& b) ^^^ (a &&& c) ^^^ (b &&& c)

/-- SHA-256 big sigma-0. -/
def bigSigma0 (x : Nat) : Nat := rotr 2 x ^^^ rotr 13 x ^^^ rotr 22 x

/-- SHA-256 big sigma-1. -/
def bigSigma1 (x : Nat) : Nat := rotr 6 x ^^^ rotr 11 x ^^^ rotr 25 x

/-- SHA-256 small sigma-0. -/
def smallSigma0 (x : Nat) : Nat := rotr 7 x ^^^ rotr 18 x ^^^ (x >>> 3)

/-- SHA-256 small sigma-1. -/
def smallSigma1 (x : Nat) : Nat := rotr 17 x ^^^ rotr 19 x ^^^ (x >>> 10)

/-- The 64 SHA-256 round constants of FIPS 180-4 (written in decimal;
the first is 0x428a2f98, the last 0xc67178f2). -/
def Kconst : List Nat :=
  [1116352408, 1899447441, 3049323471, 3921009573, 961987163, 1508970993,
   2453635748, 2870763221, 3624381080, 310598401, 607225278, 1426881987,
   1925078388, 2162078206, 2614888103, 3248222580, 3835390401, 4022224774,
   264347078, 604807628, 770255983, 1249150122, 1555081692, 1996064986,
   2554220882, 2821834349, 2952996808, 3210313671, 3336571891, 3584528711,
   113926993, 338241895, 666307205, 773529912, 1294757372, 1396182291,
   1695183700, 1986661051, 2177026350, 2456956037, 2730485921, 2820302411,
   3259730800, 3345764771, 3516065817, 3600352804, 4094571909, 275423344,
   430227734, 506948616, 659060556, 883997877, 958139571, 1322822218,
   1537002063, 1747873779, 1955562222, 2024104815, 2227730452, 2361852424,
   2428436474, 2756734187, 3204031479, 3329325298]

/-- The eight 32-bit working variables of the SHA-256 compression function. -/
structure Regs where
  a : Nat
  b : Nat
  c : Nat
  d : Nat
  e : Nat
  f : Nat
  g : Nat
  h : Nat

/-- SHA-256 initial hash value of FIPS 180-4 (in decimal; the first word
is 0x6a09e667). -/
def initH : Regs :=
  ⟨1779033703, 3144134277, 1013904242, 2773480762,
   1359893119, 2600822924, 528734635, 1541459225⟩

/-- One SHA-256 round, consuming one (schedule word, round constant) pair. -/
def round (st : Regs) (wk : Nat × Nat) : Regs :=
  let t1 := w32 (st.h + bigSigma1 st.e + ch st.e st.f st.g + wk.2 + wk.1)
  let t2 := w32 (bigSigma0 st.a + maj st.a st.b st.c)
  ⟨w32 (t1 + t2), st.a, st.b, st.c, w32 (st.d + t1), st.e, st.f, st.g⟩

/-- Big-endian packing of a byte list into 32-bit words, four bytes per word. -/
def bytesToWordsBE : List Nat → List Nat
  | b0 :: b1 :: b2 :: b3 :: rest =>
      ((((b0 <<< 8) ||| b1) <<< 8 ||| b2) <<< 8 ||| b3) :: bytesToWordsBE rest
  | _ => []

/-- The next message-schedule word, computed from the words produced so far. -/
def nextScheduleWord (ws : List Nat) : Nat :=
  w32 (smallSigma1 (ws.getD (ws.length - 2) 0) + ws.getD (ws.length - 7) 0 +
       smallSigma0 (ws.getD (ws.length - 15) 0) + ws.getD (ws.length - 16) 0)

/-- Extension of the 16-word message schedule by n further words. -/
def extendSchedule (ws : List Nat) : Nat → List Nat
  | 0 => ws
  | n + 1 => extendSchedule (ws ++ [nextScheduleWord ws]) n

/-- Elementwise 32-bit addition of the compression result into the chaining value. -/
def addRegs (x y : Regs) : Regs :=
  ⟨w32 (x.a + y.a), w32 (x.b + y.b), w32 (x.c + y.c), w32 (x.d + y.d),
   w32 (x.e + y.e), w32 (x.f + y.f), w32 (x.g + y.g), w32 (x.h + y.h)⟩

/-- SHA-256 compression of one 64-byte chunk into the chaining value. -/
def compress (hv : Regs) (chunk : List Nat) : Regs :=
  let w := extendSchedule (bytesToWordsBE chunk) 48
  addRegs hv ((w.zip Kconst).foldl round hv)

/-- Splitting of a byte list into consecutive 64-byte chunks, with a
structural fuel argument so the definition evaluates by kernel reduction;
each step consumes a nonempty list, so fuel equal to the list length always
suffices. -/
def chunksOf64Fuel : Nat → List Nat → List (List Nat)
  | 0, _ => []
  | _, [] => []
  | fuel + 1, x :: xs => ((x :: xs).take 64) :: chunksOf64Fuel fuel ((x :: xs).drop 64)

/-- Splitting of a byte list into consecutive 64-byte chunks. -/
def chunksOf64 (l : List Nat) : List (List Nat) := chunksOf64Fuel l.length l

/-- Big-endian 8-byte encoding of a natural number (the message bit length). -/
def len64BytesBE (n : Nat) : List Nat :=
  [(n >>> 56) % 256, (n >>> 48) % 256, (n >>> 40) % 256, (n >>> 32) % 256,
   (n >>> 24) % 256, (n >>> 16) % 256, (n >>> 8) % 256, n % 256]

/-- SHA-256 padding: append 0x80, zero bytes up to 56 mod 64, then the 64-bit
big-endian bit length. -/
def padMessage (msg : List Nat) : List Nat :=
  msg ++ [0x80] ++ List.replicate ((119 - msg.length % 64) % 64) 0 ++ len64BytesBE (8 * msg.length)

/-- Big-endian byte decomposition of a 32-bit word. -/
def word32BytesBE (w : Nat) : List Nat :=
  [(w >>> 24) % 256, (w >>> 16) % 256, (w >>> 8) % 256, w % 256]

/-- The 32 digest bytes of a final chaining value. -/
def digestBytes (hv : Regs) : List Nat :=
  word32BytesBE hv.a ++ word32BytesBE hv.b ++ word32BytesBE hv.c ++ word32BytesBE hv.d ++
  word32BytesBE hv.e ++ word32BytesBE hv.f ++ word32BytesBE hv.g ++ word32BytesBE hv.h

/-- SHA-256 digest of a byte list, as a list of 32 bytes: the embedding of
Python's hashlib.sha256 digest, called by both source files.  (Validated
against the FIPS 180 test vectors for the empty string and for abc.) -/
def sha256 (msg : List Nat) : List Nat :=
  digestBytes ((chunksOf64 (padMessage msg)).foldl compress initH)

/-- The for-loop body of add_to_32_bit_bloom_filter (src/Bitmap.py lines
251-252) and add_to_bloom_filter (src/BloomFilter.py lines 70-71): for each
index i in the given list, in order, add sha256_hash at index i to the bloom
set.  Python's sha256_hash subscript raises IndexError when the index is out
of range, embedded here as `none`. -/
def addBytesLoop (hash_bytes : List Nat) (bloom : Finset Nat) : List Nat → Option (Finset Nat)
  | [] => some bloom
  | i :: rest =>
    match hash_bytes[i]? with
    | some v => addBytesLoop hash_bytes (insert v bloom) rest
    | none => none

/-- Embedding of add_to_32_bit_bloom_filter (src/Bitmap.py lines 236-254):
UTF-8-encode the string, take its SHA-256 digest, and add the digest bytes at
indices 0..num_hashes-1 to the bloom set.  The mutation of the Python set is
embedded as state passing: the result is the updated set, or `none` when the
loop raises IndexError (num_hashes exceeding the 32 digest bytes).  (The
Python function's final `return set` statement returns the set class, which
no caller uses; callers observe only the mutated set, which is what this
embedding returns.) -/
def add_to_32_bit_bloom_filter (string_to_add : String) (num_hashes : Nat)
    (bloom : Finset Nat) : Option (Finset Nat) :=
  addBytesLoop (sha256 (utf8Encode string_to_add)) bloom (List.range num_hashes)

/-- The module-level global `num_hashes = 10` of src/BloomFilter.py line 32. -/
def global_num_hashes : Nat := 10

/-- Embedding of add_to_bloom_filter (src/BloomFilter.py lines 56-71): the
same digest loop, reading the module-global num_hashes. -/
def add_to_bloom_filter (string_to_add : String) (bloom : Finset Nat) : Option (Finset Nat) :=
  addBytesLoop (sha256 (utf8Encode string_to_add)) bloom (List.range global_num_hashes)

/-- The entry loop of create_bloom_filter (src/Bitmap.py lines 228-229):
add each entry in order to the accumulating bloom set. -/
def create_bloom_filter_loop (num_hashes : Nat) (bloom : Finset Nat) :
    List String → Option (Finset Nat)
  | [] => some bloom
  | item :: rest =>
    match add_to_32_bit_bloom_filter item num_hashes bloom with
    | some b => create_bloom_filter_loop num_hashes b rest
    | none => none

/-- Embedding of create_bloom_filter (src/Bitmap.py lines 226-230): start
from the empty set and add every entry.  (create_bloom_filter in
src/BloomFilter.py lines 43-50 is the same loop with the global num_hashes,
that is, this function applied at num_hashes = 10.) -/
def create_bloom_filter (entries : List String) (num_hashes : Nat) : Option (Finset Nat) :=
  create_bloom_filter_loop num_hashes ∅ entries

/-- Embedding of item_in_bloom (src/Bitmap.py lines 232-234, identically
src/BloomFilter.py lines 52-54): build the item's one-element filter and test
item_hash & bloom == item_hash, Python set intersection and equality. -/
def item_in_bloom (item : String) (bloom : Finset Nat) (num_hashes : Nat) : Option Bool :=
  (create_bloom_filter [item] num_hashes).map
    (fun item_hash => decide (item_hash ∩ bloom = item_hash))

/-- Embedding of byte_for_coordinate (src/Bitmap.py lines 266-267,
identically src/BloomFilter.py lines 83-84): Python computes
(y & 0xf) + ((x & 0xf) << 4) on arbitrary-precision integers, where v & 0xf
is v % 16 (mathematical modulus) and << 4 multiplies by 16. -/
def byte_for_coordinate (x y : Int) : Int := y % 16 + (x % 16) * 16

/-- Embedding of coordinates_from_byte (src/Bitmap.py lines 257-264,
identically src/BloomFilter.py lines 74-81): Python computes
x = (b & 0xF0) >> 4 and y = b & 0x0F, where b & 0xF0 is (b % 256) with the
low four bits cleared, so after the shift x = (b % 256) / 16, and
y = b % 16. -/
def coordinates_from_byte (b : Int) : Int × Int := ((b % 256) / 16, b % 16)

/-- The sparse hash of the specification (spec section 4.1), stated in the
spec's own words for comparison with the code's loop: the set of the first
num_hashes bytes of the SHA-256 digest of the item's UTF-8 encoding,
duplicates collapsed. -/
def sparse_hash (item : String) (num_hashes : Nat) : Finset Nat :=
  ((sha256 (utf8Encode item)).take num_hashes).toFinset

/-- The union, over a list of entries, of each entry's sparse hash (the
specification's description of a completed filter). -/
def unionSparse (entries : List String) (num_hashes : Nat) : Finset Nat :=
  entries.foldr (fun item acc => sparse_hash item num_hashes ∪ acc) ∅

/-- The contents of the shared default set object of
add_to_32_bit_bloom_filter (src/Bitmap.py line 236): Python evaluates the
default expression set() once, when the def statement executes, so it starts
empty. -/
def default_arg_initial : Finset Nat := ∅

/-- One call to add_to_32_bit_bloom_filter that omits the bloom argument:
the call reads and mutates the single shared default set object, embedded as
explicit state passing on that object's contents. -/
def default_arg_call (shared : Finset Nat) (string_to_add : String) (num_hashes : Nat) :
    Option (Finset Nat) :=
  add_to_32_bit_bloom_filter string_to_add num_hashes shared

end FusionBloom

namespace FusionBloom

theorem sha256_length (msg : List Nat) : (sha256 msg).length = 32 := by
  simp [sha256, digestBytes, word32BytesBE]

theorem addBytesLoop_some (hash_bytes : List Nat) (idxs : List Nat) :
    ∀ bloom : Finset Nat, (∀ i ∈ idxs, i < hash_bytes.length) →
      addBytesLoop hash_bytes bloom idxs =
        some (bloom ∪ (idxs.map (fun i => hash_bytes.getD i 0)).toFinset) := by
  induction idxs with
  | nil => intro bloom _; simp [addBytesLoop]
  | cons i rest ih =>
    intro bloom hlt
    have hi : i < hash_bytes.length := hlt i (by simp)
    have hrest : ∀ j ∈ rest, j < hash_bytes.length := fun j hj => hlt j (by simp [hj])
    simp only [addBytesLoop, List.getElem?_eq_getElem hi]
    rw [ih (insert hash_bytes[i] bloom) hrest]
    congr 1
    rw [List.map_cons, List.toFinset_cons, List.getD_eq_getElem _ _ hi,
      Finset.insert_union, Finset.union_insert]

theorem addBytesLoop_none (hash_bytes : List Nat) (idxs : List Nat) (m : Nat)
    (hm : m ∈ idxs) (hlen : hash_bytes.length ≤ m) :
    ∀ bloom : Finset Nat, addBytesLoop hash_bytes bloom idxs = none := by
  induction idxs with
  | nil => cases hm
  | cons i rest ih =>
    intro bloom
    rcases List.mem_cons.mp hm with h | h
    · have hg : hash_bytes[i]? = none := by
        rw [List.getElem?_eq_none_iff]
        omega
      simp [addBytesLoop, hg]
    · cases hg : hash_bytes[i]? with
      | none => simp [addBytesLoop, hg]
      | some v =>
        simp only [addBytesLoop, hg]
        exact ih h _

theorem map_getD_range_eq_take (l : List Nat) (n : Nat) (hn : n ≤ l.length) :
    (List.range n).map (fun i => l.getD i 0) = l.take n := by
  apply List.ext_getElem
  · simp [hn, List.length_take]
  · intro i h1 h2
    have hil : i < l.length := by
      simp at h1
      omega
    simp [List.getElem_map, List.getElem_range, List.getElem_take,
      List.getElem?_eq_getElem hil]

theorem add_ok (s : String) (n : Nat) (bloom : Finset Nat) (hn : n ≤ 32) :
    add_to_32_bit_bloom_filter s n bloom = some (bloom ∪ sparse_hash s n) := by
  have hlen : (sha256 (utf8Encode s)).length = 32 := sha256_length _
  rw [add_to_32_bit_bloom_filter,
    addBytesLoop_some _ _ _ (by
      intro i hi
      rw [hlen]
      exact lt_of_lt_of_le (List.mem_range.mp hi) hn),
    map_getD_range_eq_take _ _ (by omega)]
  rfl

theorem add_fail (s : String) (n : Nat) (bloom : Finset Nat) (hn : 32 < n) :
    add_to_32_bit_bloom_filter s n bloom = none :=
  addBytesLoop_none _ _ 32 (List.mem_range.mpr hn) (sha256_length _).le bloom

theorem create_loop_ok (n : Nat) (hn : n ≤ 32) (entries : List String) :
    ∀ bloom : Finset Nat,
      create_bloom_filter_loop n bloom entries = some (bloom ∪ unionSparse entries n) := by
  induction entries with
  | nil => intro bloom; simp [create_bloom_filter_loop, unionSparse]
  | cons item rest ih =>
    intro bloom
    simp only [create_bloom_filter_loop, add_ok item n bloom hn]
    rw [ih]
    congr 1
    simp [unionSparse, Finset.union_assoc]

theorem create_ok (entries : List String) (n : Nat) (hn : n ≤ 32) :
    create_bloom_filter entries n = some (unionSparse entries n) := by
  rw [create_bloom_filter, create_loop_ok n hn entries ∅, Finset.empty_union]

theorem create_fail (entries : List String) (n : Nat) (hn : 32 < n) (hne : entries ≠ []) :
    create_bloom_filter entries n = none := by
  cases entries with
  | nil => exact absurd rfl hne
  | cons item rest =>
    simp [create_bloom_filter, create_bloom_filter_loop, add_fail item n ∅ hn]

theorem sparse_hash_card_le (item : String) (n : Nat) : (sparse_hash item n).card ≤ n :=
  le_trans (List.toFinset_card_le _) (by
    rw [List.length_take]
    exact min_le_left _ _)

theorem sparse_subset_unionSparse (item : String) (entries : List String) (n : Nat)
    (h : item ∈ entries) : sparse_hash item n ⊆ unionSparse entries n := by
  induction entries with
  | nil => cases h
  | cons e rest ih =>
    rcases List.mem_cons.mp h with he | he
    · subst he
      exact Finset.subset_union_left
    · exact Finset.Subset.trans (ih he) Finset.subset_union_right

theorem unionSparse_card_le (entries : List String) (n : Nat) :
    (unionSparse entries n).card ≤ entries.length * n := by
  induction entries with
  | nil => simp [unionSparse]
  | cons e rest ih =>
    calc (unionSparse (e :: rest) n).card
        ≤ (sparse_hash e n).card + (unionSparse rest n).card := Finset.card_union_le _ _
      _ ≤ n + rest.length * n := Nat.add_le_add (sparse_hash_card_le e n) ih
      _ = (e :: rest).length * n := by
          simp [List.length_cons, Nat.succ_mul, Nat.add_comm]

theorem unionSparse_perm {l1 l2 : List String} (h : l1.Perm l2) (n : Nat) :
    unionSparse l1 n = unionSparse l2 n := by
  haveI : LeftCommutative (fun (item : String) (acc : Finset Nat) => sparse_hash item n ∪ acc) :=
    ⟨fun a b c => Finset.union_left_comm _ _ _⟩
  exact List.Perm.foldr_eq h ∅

theorem addBytesLoop_subset (hash_bytes : List Nat) (idxs : List Nat) :
    ∀ bloom bloom2 : Finset Nat,
      addBytesLoop hash_bytes bloom idxs = some bloom2 → bloom ⊆ bloom2 := by
  induction idxs with
  | nil =>
    intro bloom bloom2 h
    simp [addBytesLoop] at h
    subst h
    exact Finset.Subset.refl _
  | cons i rest ih =>
    intro bloom bloom2 h
    cases hg : hash_bytes[i]? with
    | none => simp [addBytesLoop, hg] at h
    | some v =>
      simp only [addBytesLoop, hg] at h
      exact Finset.Subset.trans (Finset.subset_insert v bloom) (ih _ _ h)

theorem item_in_bloom_eq (item : String) (bloom : Finset Nat) (n : Nat) (hn : n ≤ 32) :
    item_in_bloom item bloom n = some (decide (sparse_hash item n ⊆ bloom)) := by
  rw [item_in_bloom, create_ok [item] n hn]
  simp only [Option.map_some']
  congr 1
  rw [decide_eq_decide]
  have h1 : unionSparse [item] n = sparse_hash item n := by simp [unionSparse]
  rw [h1, Finset.inter_eq_left]

end FusionBloom

namespace FusionBloom

set_option maxRecDepth 40000 in
/-- C1: for every byte b in 0-255, byte_for_coordinate applied to the pair
returned by coordinates_from_byte b equals b, and for every x and y each in
0-15, coordinates_from_byte applied to byte_for_coordinate x y returns
exactly (x, y): the two functions form a bijection between bytes and the
16x16 grid, with x the high nibble and y the low nibble. -/
theorem c1_grid_bijection :
    (∀ b : Nat, b < 256 →
      byte_for_coordinate (coordinates_from_byte (b : Int)).1 (coordinates_from_byte (b : Int)).2
        = (b : Int)) ∧
    (∀ x : Nat, x < 16 → ∀ y : Nat, y < 16 →
      coordinates_from_byte (byte_for_coordinate (x : Int) (y : Int))
        = ((x : Int), (y : Int))) := by
  constructor <;> decide

/-- Witness for C1 at b = 171 and (x, y) = (10, 11). -/
theorem c1_grid_bijection_witness :
    byte_for_coordinate (coordinates_from_byte ((171 : Nat) : Int)).1
        (coordinates_from_byte ((171 : Nat) : Int)).2 = ((171 : Nat) : Int) ∧
    coordinates_from_byte (byte_for_coordinate ((10 : Nat) : Int) ((11 : Nat) : Int))
        = (((10 : Nat) : Int), ((11 : Nat) : Int)) :=
  ⟨c1_grid_bijection.1 171 (by decide), c1_grid_bijection.2 10 (by decide) 11 (by decide)⟩

/-- C2: for every entry list and num_hashes n in 1..32, create_bloom_filter
returns exactly the union, over the entries, of each item's sparse hash (the
set of the first n bytes of the SHA-256 digest of the item's UTF-8
encoding), and each sparse hash has at most n elements. -/
theorem c2_create_is_union (entries : List String) (n : Nat) (_h1 : 1 ≤ n) (h2 : n ≤ 32) :
    create_bloom_filter entries n = some (unionSparse entries n) ∧
    ∀ item ∈ entries, (sparse_hash item n).card ≤ n :=
  ⟨create_ok entries n h2, fun item _ => sparse_hash_card_le item n⟩

/-- Witness for C2 at entries Oats, Peas with n = 10. -/
theorem c2_create_is_union_witness :
    create_bloom_filter ["Oats", "Peas"] 10 = some (unionSparse ["Oats", "Peas"] 10) ∧
    ∀ item ∈ (["Oats", "Peas"] : List String), (sparse_hash item 10).card ≤ 10 :=
  c2_create_is_union ["Oats", "Peas"] 10 (by decide) (by decide)

/-- C3: for every filter set and query string, with the filter's num_hashes
(at most 32, the valid range fixed at filter construction), item_in_bloom
returns true exactly when the query's own sparse hash is a subset of the
filter's element set. -/
theorem c3_membership_iff_subset (item : String) (bloom : Finset Nat) (n : Nat)
    (hn : n ≤ 32) :
    (item_in_bloom item bloom n = some true ↔ sparse_hash item n ⊆ bloom) := by
  rw [item_in_bloom_eq item bloom n hn]
  simp

set_option maxRecDepth 40000 in
/-- Witness for C3 at query A against the singleton filter 85 with n = 1. -/
theorem c3_membership_iff_subset_witness :
    (item_in_bloom "A" {85} 1 = some true ↔ sparse_hash "A" 1 ⊆ {85}) :=
  c3_membership_iff_subset "A" {85} 1 (by decide)

/-- C4: no false negatives — for every entry list, every item in it, and
every num_hashes at most 32, the membership test on the filter built from
that list returns true for that item. -/
theorem c4_no_false_negatives (entries : List String) (item : String) (n : Nat)
    (bloom : Finset Nat) (h1 : n ≤ 32) (h2 : item ∈ entries)
    (h3 : create_bloom_filter entries n = some bloom) :
    item_in_bloom item bloom n = some true := by
  have hb : bloom = unionSparse entries n := by
    have hc := create_ok entries n h1
    rw [h3] at hc
    exact Option.some.inj hc
  subst hb
  rw [item_in_bloom_eq item _ n h1]
  simp only [Option.some.injEq, decide_eq_true_eq]
  exact sparse_subset_unionSparse item entries n h2

set_option maxRecDepth 100000 in
/-- Witness for C4: the filter built from Oats and Peas with n = 2 contains
exactly the bytes 78, 22, 62, 40, and the membership test for Peas on it
returns true (elements listed in the computed insertion order). -/
theorem c4_no_false_negatives_witness :
    item_in_bloom "Peas" {40, 62, 22, 78} 2 = some true :=
  c4_no_false_negatives ["Oats", "Peas"] "Peas" 2 {40, 62, 22, 78} (by decide) (by decide)
    (by decide)

/-- C5 counterexample: with num_hashes = 0 the add operation does not signal
anything — the loop body never runs and the call succeeds, returning the
bloom set unchanged — contradicting the claim that num_hashes = 0 signals
InvalidArgument. -/
theorem c5_zero_num_hashes_no_error : add_to_32_bit_bloom_filter "Oats" 0 ∅ = some ∅ := rfl

/-- C5 amended: for every input string and starting set, num_hashes = 32
succeeds, contributing the at most 32 distinct digest bytes; num_hashes = 33
signals an error (IndexError from indexing past the 32 digest bytes); but
num_hashes = 0 does not signal — it succeeds and leaves the set unchanged. -/
theorem c5_num_hashes_boundaries (s : String) (bloom : Finset Nat) :
    add_to_32_bit_bloom_filter s 32 bloom = some (bloom ∪ sparse_hash s 32) ∧
    (sparse_hash s 32).card ≤ 32 ∧
    add_to_32_bit_bloom_filter s 33 bloom = none ∧
    add_to_32_bit_bloom_filter s 0 bloom = some bloom :=
  ⟨add_ok s 32 bloom (le_refl 32), sparse_hash_card_le s 32,
   add_fail s 33 bloom (by omega), rfl⟩

set_option maxRecDepth 10000 in
/-- C6 counterexample: out-of-range and negative coordinates do not signal:
byte_for_coordinate 16 0 returns 0, byte_for_coordinate (-1) 5 returns 245,
coordinates_from_byte 256 returns (0, 0), and coordinates_from_byte (-1)
returns (15, 15) — each returns a value instead of signaling
InvalidArgument. -/
theorem c6_out_of_range_returns_value :
    byte_for_coordinate 16 0 = 0 ∧ byte_for_coordinate (-1) 5 = 245 ∧
    coordinates_from_byte 256 = (0, 0) ∧ coordinates_from_byte (-1) = (15, 15) := by
  decide

/-- C6 amended: the GridMapper functions are total — out-of-range and
negative inputs are masked (coordinates to their low 4 bits, the byte to its
low 8 bits) and a value in range is always returned; nothing is ever
signaled. -/
theorem c6_grid_total_masks (x y b : Int) :
    byte_for_coordinate x y = byte_for_coordinate (x % 16) (y % 16) ∧
    0 ≤ byte_for_coordinate x y ∧ byte_for_coordinate x y < 256 ∧
    coordinates_from_byte b = coordinates_from_byte (b % 256) := by
  unfold byte_for_coordinate coordinates_from_byte
  refine ⟨by omega, by omega, by omega, ?_⟩
  have h1 : b % 256 % 256 = b % 256 := by omega
  have h2 : b % 256 % 16 = b % 16 := by omega
  rw [h1, h2]

/-- C7: building fresh filters from two entry lists that are permutations of
each other yields identical results, for every num_hashes: insertion order
never matters because set union is commutative. -/
theorem c7_order_independent (l1 l2 : List String) (n : Nat) (h : l1.Perm l2) :
    create_bloom_filter l1 n = create_bloom_filter l2 n := by
  by_cases hn : n ≤ 32
  · rw [create_ok l1 n hn, create_ok l2 n hn, unionSparse_perm h n]
  · push_neg at hn
    cases l1 with
    | nil =>
      have h0 : l2 = [] := (List.Perm.nil_eq h).symm
      subst h0
      rfl
    | cons a rest =>
      have h2 : l2 ≠ [] := by
        intro he
        subst he
        exact absurd h.length_eq (by simp)
      rw [create_fail (a :: rest) n hn (by simp), create_fail l2 n hn h2]

/-- Witness for C7 at the claim's lists A, B, C and C, B, A with
num_hashes 10. -/
theorem c7_order_independent_witness :
    create_bloom_filter ["A", "B", "C"] 10 = create_bloom_filter ["C", "B", "A"] 10 :=
  c7_order_independent ["A", "B", "C"] ["C", "B", "A"] 10 (by decide)

/-- C8: the filter is append-only — whenever the add operation succeeds, the
prior element set is a subset of the resulting one (the loop only ever
inserts); this covers add_to_32_bit_bloom_filter of Bitmap.py for every
num_hashes and add_to_bloom_filter of BloomFilter.py, its num_hashes = 10
instance. -/
theorem c8_append_only (s : String) (n : Nat) (bloom bloom2 : Finset Nat) :
    (add_to_32_bit_bloom_filter s n bloom = some bloom2 → bloom ⊆ bloom2) ∧
    (add_to_bloom_filter s bloom = some bloom2 → bloom ⊆ bloom2) :=
  ⟨fun h => addBytesLoop_subset _ _ bloom bloom2 h,
   fun h => addBytesLoop_subset _ _ bloom bloom2 h⟩

set_option maxRecDepth 40000 in
/-- Witness for C8: adding A with num_hashes 1 to the empty set yields the
singleton 85, which contains the empty set. -/
theorem c8_append_only_witness : (∅ : Finset Nat) ⊆ {85} :=
  (c8_append_only "A" 1 ∅ {85}).1 (by decide)

/-- C9: a filter built from k entries with num_hashes n (at most 32) has at
most k * n elements and at least as many elements as every single entry's
sparse hash; instantiated at the spec's scenario this bounds the four-crop
filter with num_hashes 10 by 40. -/
theorem c9_size_bounds (entries : List String) (n : Nat) (bloom : Finset Nat)
    (h1 : n ≤ 32) (h2 : create_bloom_filter entries n = some bloom) :
    bloom.card ≤ entries.length * n ∧
    ∀ item ∈ entries, (sparse_hash item n).card ≤ bloom.card := by
  have hb : bloom = unionSparse entries n := by
    have hc := create_ok entries n h1
    rw [h2] at hc
    exact Option.some.inj hc
  subst hb
  exact ⟨unionSparse_card_le entries n,
    fun item hm => Finset.card_le_card (sparse_subset_unionSparse item entries n hm)⟩

set_option maxRecDepth 400000 in
/-- Witness for C9 at the concrete scenario: num_hashes 10 and the items
Oats, Peas, Beans, Barley produce the 33-element set below, whose size is
bounded by 4 * 10 and bounds each item's sparse-hash size. -/
theorem c9_size_bounds_witness :
    ({199, 102, 229, 109, 43, 67, 4, 185, 82, 218, 13, 77, 247, 162, 42, 18, 212, 115, 244,
      132, 61, 233, 40, 62, 90, 112, 155, 240, 1, 242, 72, 22, 78} : Finset Nat).card ≤
      (["Oats", "Peas", "Beans", "Barley"] : List String).length * 10 ∧
    ∀ item ∈ (["Oats", "Peas", "Beans", "Barley"] : List String),
      (sparse_hash item 10).card ≤
        ({199, 102, 229, 109, 43, 67, 4, 185, 82, 218, 13, 77, 247, 162, 42, 18, 212, 115, 244,
          132, 61, 233, 40, 62, 90, 112, 155, 240, 1, 242, 72, 22, 78} : Finset Nat).card :=
  c9_size_bounds ["Oats", "Peas", "Beans", "Barley"] 10
    {199, 102, 229, 109, 43, 67, 4, 185, 82, 218, 13, 77, 247, 162, 42, 18, 212, 115, 244,
     132, 61, 233, 40, 62, 90, 112, 155, 240, 1, 242, 72, 22, 78} (by decide) (by decide)

/-- C10: calls of add_to_32_bit_bloom_filter that omit the bloom argument
share the single default set object: starting from the empty default set,
after a first default call with s1 and a second with s2 (num_hashes at most
32), the shared set holds exactly the union of both items' sparse hashes —
the second call's resulting state contains the first call's bytes, so it is
not independent of the first call. -/
theorem c10_shared_default_state (s1 s2 : String) (n : Nat) (st1 st2 : Finset Nat)
    (hn : n ≤ 32) (_hne : s1 ≠ s2)
    (h1 : default_arg_call default_arg_initial s1 n = some st1)
    (h2 : default_arg_call st1 s2 n = some st2) :
    st2 = sparse_hash s1 n ∪ sparse_hash s2 n ∧
    sparse_hash s1 n ⊆ st2 ∧ sparse_hash s2 n ⊆ st2 := by
  have e1 : st1 = sparse_hash s1 n := by
    have ha := add_ok s1 n default_arg_initial hn
    rw [default_arg_call] at h1
    rw [ha] at h1
    have h3 := (Option.some.inj h1).symm
    simpa [default_arg_initial] using h3
  subst e1
  have e2 : st2 = sparse_hash s1 n ∪ sparse_hash s2 n := by
    have ha := add_ok s2 n (sparse_hash s1 n) hn
    rw [default_arg_call] at h2
    rw [ha] at h2
    exact (Option.some.inj h2).symm
  subst e2
  exact ⟨rfl, Finset.subset_union_left, Finset.subset_union_right⟩

set_option maxRecDepth 100000 in
/-- Witness for C10 with the strings A and B at num_hashes 1: the first
default call leaves 85 in the shared set and the second also 223, the
union of both sparse hashes. -/
theorem c10_shared_default_state_witness :
    ({223, 85} : Finset Nat) = sparse_hash "A" 1 ∪ sparse_hash "B" 1 ∧
    sparse_hash "A" 1 ⊆ {223, 85} ∧ sparse_hash "B" 1 ⊆ {223, 85} :=
  c10_shared_default_state "A" "B" 1 {85} {223, 85} (by decide) (by decide) (by decide)
    (by decide)

end FusionBloom
